import Mathlib

/-!
Shallow embedding of the firework burst engine and the gesture reducer of
`src/script.js`, together with the two further variants in
`src/unnamed/part_000`: the first variant differs from `src/script.js` only
in numeric constants, while the second (tech) variant additionally replaces
the opacity line by a flicker branch, modelled separately below.  Numbers
are modelled as rationals;
the JS source computes with IEEE floats, so the theorems below describe the
exact-arithmetic behaviour of the algorithms.
-/

/-- A 3D vector with rational components (models `THREE.Vector3` and one
particle slot of the flat `Float32Array` buffers, `[i*3], [i*3+1], [i*3+2]`). -/
structure Vec3 where
  x : ℚ
  y : ℚ
  z : ℚ
deriving DecidableEq, Repr

/-- Squared Euclidean magnitude of a vector (the quantity under the square
root of the Euclidean norm). -/
def Vec3.normSq (v : Vec3) : ℚ := v.x ^ 2 + v.y ^ 2 + v.z ^ 2

/-- The per-variant numeric configuration: `FIREWORK_LIFETIME`, `GRAVITY.y`,
and the drag factor applied to every velocity component each frame. -/
structure Config where
  lifetime : ℚ
  gravityY : ℚ
  drag : ℚ
deriving DecidableEq, Repr

/-- Constants of `src/script.js`: lifetime 3.0, gravity (0, -0.05, 0), drag 0.97. -/
def scriptCfg : Config := { lifetime := 3, gravityY := -5/100, drag := 97/100 }

/-- Constants of the first variant in `src/unnamed/part_000`: lifetime 3.0,
gravity y -0.05, drag 0.98. -/
def goldCfg : Config := { lifetime := 3, gravityY := -5/100, drag := 98/100 }

/-- Constants of the second variant in `src/unnamed/part_000`: lifetime 2.5,
gravity y -0.02, drag 0.95. -/
def techCfg : Config := { lifetime := 5/2, gravityY := -2/100, drag := 95/100 }

/-- State of one `Firework` object.  `positions`/`velocities` model the
`Float32Array` buffers (one `Vec3` per particle).  `opacity` models
`this.points.material.opacity` (a `PointsMaterial` starts fully opaque).
`inScene` records whether `this.points` is attached to the scene, and
`disposals` counts how many times the disposal path (`scene.remove`,
`geometry.dispose()`, `material.dispose()`) has run for this object. -/
structure Firework where
  active : Bool
  time : ℚ
  positions : List Vec3
  velocities : List Vec3
  opacity : ℚ
  color : ℕ
  inScene : Bool
  disposals : ℕ
deriving DecidableEq, Repr

/-- The `Firework` constructor: all particles start at `position`, the
sampled velocity vectors are passed in explicitly (the `Math.random()`
spherical sampling is an external random source), and `scene.add` puts the
points object into the scene. -/
def Firework.create (origin : Vec3) (color : ℕ) (vels : List Vec3) : Firework :=
  { active := true
    time := 0
    positions := vels.map fun _ => origin
    velocities := vels
    opacity := 1
    color := color
    inScene := true
    disposals := 0 }

/-- One particle's position update, the three `positions[...] += ...` lines of
`Firework.update`:  each axis gains `velocity * delta * 15`, and the y axis
additionally gains `GRAVITY.y * delta * 20`. -/
def stepPos (cfg : Config) (delta : ℚ) (p v : Vec3) : Vec3 :=
  { x := p.x + v.x * delta * 15
    y := p.y + v.y * delta * 15 + cfg.gravityY * delta * 20
    z := p.z + v.z * delta * 15 }

/-- One particle's velocity update, the three drag lines of `Firework.update`:
every component is multiplied by the drag constant. -/
def stepVel (cfg : Config) (v : Vec3) : Vec3 :=
  { x := v.x * cfg.drag
    y := v.y * cfg.drag
    z := v.z * cfg.drag }

/-- `Firework.update(delta)` of `src/script.js` lines 75-101 (and, with its
constants, of the first `part_000` variant):  an early return when inactive;
otherwise `time += delta`, the per-particle position/velocity loop,
`opacity = max(0, 1 - time/lifetime)`, and, when `time > lifetime`,
deactivation together with scene removal and resource disposal.  The tech
variant's update differs in the opacity line only; see
`Firework.updateFlicker`. -/
def Firework.update (cfg : Config) (fw : Firework) (delta : ℚ) : Firework :=
  if fw.active = false then fw
  else
    let time2 := fw.time + delta
    let positions2 := List.zipWith (stepPos cfg delta) fw.positions fw.velocities
    let velocities2 := fw.velocities.map (stepVel cfg)
    let opacity2 := max 0 (1 - time2 / cfg.lifetime)
    if cfg.lifetime < time2 then
      { fw with
        active := false
        time := time2
        positions := positions2
        velocities := velocities2
        opacity := opacity2
        inScene := false
        disposals := fw.disposals + 1 }
    else
      { fw with
        time := time2
        positions := positions2
        velocities := velocities2
        opacity := opacity2 }

/-- `Firework.update(delta)` of the tech variant in `src/unnamed/part_000`.
Identical to `Firework.update` except for the flicker opacity line
`this.points.material.opacity = Math.random() > 0.1 ? Math.max(0, 1 -
(this.time / FIREWORK_LIFETIME)) : 0.2;` — the frame's `Math.random()` draw
is passed in explicitly as `draw`. -/
def Firework.updateFlicker (cfg : Config) (fw : Firework) (delta : ℚ)
    (draw : ℚ) : Firework :=
  if fw.active = false then fw
  else
    let time2 := fw.time + delta
    let positions2 := List.zipWith (stepPos cfg delta) fw.positions fw.velocities
    let velocities2 := fw.velocities.map (stepVel cfg)
    let opacity2 :=
      if 1/10 < draw then max 0 (1 - time2 / cfg.lifetime) else 1/5
    if cfg.lifetime < time2 then
      { fw with
        active := false
        time := time2
        positions := positions2
        velocities := velocities2
        opacity := opacity2
        inScene := false
        disposals := fw.disposals + 1 }
    else
      { fw with
        time := time2
        positions := positions2
        velocities := velocities2
        opacity := opacity2 }

/-- A default `Firework` used only as the out-of-bounds fallback of list
indexing (the JS loop never indexes out of bounds). -/
def fwDefault : Firework :=
  { active := false, time := 0, positions := [], velocities := []
    opacity := 0, color := 0, inScene := false, disposals := 0 }

/-- The reverse-iteration reaping loop of `animate`, lines 204-210:
`let i = activeFireworks.length; while (i--) { activeFireworks[i].update(delta);
if (!activeFireworks[i].active) activeFireworks.splice(i, 1); }`.
`tickLoop cfg delta i a` runs the remaining iterations for indices
`i-1, i-2, ..., 0` on the current array `a`; in-place mutation by `update`
is `List.set`, and `splice(i, 1)` is `List.eraseIdx i`.  Because the scan
moves from the top index down, a removal at `i` only shifts indices above
`i`, all of which have already been visited. -/
def tickLoop (cfg : Config) (delta : ℚ) : ℕ → List Firework → List Firework
  | 0, a => a
  | i + 1, a =>
    let f2 := (a.getD i fwDefault).update cfg delta
    let a2 := a.set i f2
    let a3 := if f2.active then a2 else a2.eraseIdx i
    tickLoop cfg delta i a3

/-- One registry pass of `animate`: the reverse `while (i--)` loop started at
`activeFireworks.length`. -/
def animTick (cfg : Config) (delta : ℚ) (fws : List Firework) : List Firework :=
  tickLoop cfg delta fws.length fws

/-- One detected hand landmark in normalized image space (`landmark.x`,
`landmark.y` in [0,1]). -/
structure Landmark where
  x : ℚ
  y : ℚ
deriving DecidableEq, Repr

/-- The three landmarks `onResults` reads from one detected hand:
`landmarks[4]` (thumb tip), `landmarks[8]` (index tip), `landmarks[12]`
(middle tip). -/
structure Hand where
  thumbTip : Landmark
  indexTip : Landmark
  middleTip : Landmark
deriving DecidableEq, Repr

/-- The `Math.random()` draws `onResults` may consume for one hand:
`palmDraw` is the throttling draw of the palm-open branch, and `rx ry rz`
are the three position draws of the palm-open burst location. -/
structure HandRand where
  palmDraw : ℚ
  rx : ℚ
  ry : ℚ
  rz : ℚ
deriving DecidableEq, Repr

/-- Squared 2D distance between two landmarks.  The source computes
`Math.sqrt((a.x-b.x)^2 + (a.y-b.y)^2)` and only ever compares the result with
a nonnegative threshold `t`; since both sides are nonnegative and squaring is
monotone, `sqrt s < t` iff `s < t^2`, so the embedding compares squares. -/
def distSq (a b : Landmark) : ℚ :=
  (a.x - b.x) ^ 2 + (a.y - b.y) ^ 2

/-- A discrete spawn request, the argument list of each `launchFirework`
call in `onResults`, tagged by which gesture branch produced it. -/
inductive Trigger where
  | pinchHold (world : Vec3) (color : ℕ)
  | pinchRelease (world : Vec3) (color : ℕ)
  | palmOpen (world : Vec3) (color : ℕ)
deriving DecidableEq, Repr

/-- Whether a trigger is a pinch-release burst. -/
def Trigger.isRelease : Trigger → Bool
  | .pinchRelease _ _ => true
  | _ => false

/-- Whether a trigger is a pinch-hold spark. -/
def Trigger.isHold : Trigger → Bool
  | .pinchHold _ _ => true
  | _ => false

/-- Number of pinch-release triggers in a frame's output. -/
def releases (ts : List Trigger) : ℕ := ts.countP fun t => t.isRelease

/-- Number of pinch-hold triggers in a frame's output. -/
def pinchHolds (ts : List Trigger) : ℕ := ts.countP fun t => t.isHold

/-- The world mapping applied to the index tip in `onResults`:
`worldX = (0.5 - indexTip.x) * 100`, `worldY = (0.5 - indexTip.y) * 60`,
`worldZ = 0` (constants of `src/script.js`). -/
def gestureWorld (tip : Landmark) : Vec3 :=
  { x := (1/2 - tip.x) * 100, y := (1/2 - tip.y) * 60, z := 0 }

/-- The body of the `for (const landmarks of results.multiHandLandmarks)`
loop for one hand: pinch detection against threshold 0.05 with the sticky
`lastPinchState` boolean, then the independently evaluated palm-open branch
(threshold 0.1, throttled by a `Math.random() < 0.1` draw).  Returns the new
`lastPinchState` and the `launchFirework` requests of this hand, in call
order. -/
def handStep (state : Bool) (h : Hand) (r : HandRand) : Bool × List Trigger :=
  let world := gestureWorld h.indexTip
  let pinchPart : Bool × List Trigger :=
    if distSq h.thumbTip h.indexTip < (5/100) ^ 2 then
      (true, [Trigger.pinchHold world 0xff3300])
    else if state then
      (false, [Trigger.pinchRelease world 0xf9d423])
    else
      (state, [])
  let palmPart : List Trigger :=
    if (1/10) ^ 2 < distSq h.indexTip h.middleTip ∧ r.palmDraw < 1/10 then
      [Trigger.palmOpen
        { x := (r.rx - 1/2) * 80, y := (r.ry - 1/2) * 50, z := (r.rz - 1) * 20 }
        0xffffff]
    else []
  (pinchPart.1, pinchPart.2 ++ palmPart)

/-- One `onResults` invocation.  The input is `results.multiHandLandmarks`:
`none` models a missing/absent field, `some hands` a present list (possibly
empty).  When the guard `results.multiHandLandmarks && length > 0` fails the
function only updates the status label, so the gesture state is returned
unchanged with no triggers; otherwise the hand loop threads
`lastPinchState` through the hands and concatenates their trigger lists. -/
def onResultsFrame (state : Bool) (input : Option (List (Hand × HandRand))) :
    Bool × List Trigger :=
  match input with
  | none => (state, [])
  | some hands =>
    hands.foldl
      (fun acc hr =>
        let step := handStep acc.1 hr.1 hr.2
        (step.1, acc.2 ++ step.2))
      (state, [])

/-- A sequence of `onResults` invocations threading the process-wide
`lastPinchState`, returning each frame's (state after the frame, triggers). -/
def runPinch (state : Bool) : List (Option (List (Hand × HandRand))) →
    List (Bool × List Trigger)
  | [] => []
  | f :: fs =>
    let r := onResultsFrame state f
    r :: runPinch r.1 fs

/-- The `lastPinchState` value after consuming a sequence of frames. -/
def stateAfter (state : Bool) (fs : List (Option (List (Hand × HandRand)))) : Bool :=
  fs.foldl (fun st f => (onResultsFrame st f).1) state

/-- Wraps a single detected hand as one frame's `multiHandLandmarks` input. -/
def oneHand (p : Hand × HandRand) : Option (List (Hand × HandRand)) := some [p]

/-- A default hand/draw pair, used only as the out-of-bounds fallback of
`List.getD` in statements about frame sequences. -/
def handDefault : Hand × HandRand :=
  ({ thumbTip := { x := 0, y := 0 }, indexTip := { x := 0, y := 0 },
     middleTip := { x := 0, y := 0 } },
   { palmDraw := 1, rx := 0, ry := 0, rz := 0 })

/-- A concrete frame with thumb tip and index tip coincident at the image
center: pinch distance 0, below the 0.05 threshold. -/
def heldFrame : Hand × HandRand :=
  ({ thumbTip := { x := 1/2, y := 1/2 }, indexTip := { x := 1/2, y := 1/2 },
     middleTip := { x := 1/2, y := 1/2 } },
   { palmDraw := 1, rx := 0, ry := 0, rz := 0 })

/-- A concrete frame with thumb tip at the origin and index tip at the image
center: squared pinch distance 1/2, above the squared 0.05 threshold. -/
def openFrame : Hand × HandRand :=
  ({ thumbTip := { x := 0, y := 0 }, indexTip := { x := 1/2, y := 1/2 },
     middleTip := { x := 1/2, y := 1/2 } },
   { palmDraw := 1, rx := 0, ry := 0, rz := 0 })

/-- The per-frame outputs of a single-hand frame sequence started in the
initial `lastPinchState = false` state. -/
def pinchOuts (frames : List (Hand × HandRand)) : List (Bool × List Trigger) :=
  runPinch false (frames.map oneHand)

/-- The click handler's world mapping, `mousedown` listener of
`src/script.js`: `x = (e.clientX / window.innerWidth - 0.5) * 100`,
`y = -(e.clientY / window.innerHeight - 0.5) * 60`, and `launchFirework`
is called with `z = 0`. -/
def mouseWorld (clientX clientY width height : ℚ) : Vec3 :=
  { x := (clientX / width - 1/2) * 100
    y := -(clientY / height - 1/2) * 60
    z := 0 }

/-- The world mapping exactly as the specification states it for both input
paths: `worldX = (0.5 - x) * SCALE_X`, `worldY = (0.5 - y) * SCALE_Y` with
`SCALE_X = 100`, `SCALE_Y = 60`, applied to normalized coordinates `x`, `y`. -/
def specWorld (x y : ℚ) : Vec3 :=
  { x := (1/2 - x) * 100, y := (1/2 - y) * 60, z := 0 }

/-- The per-tick environment of `animate` beyond the registry: the computed
wall-clock `delta`, the `Math.random()` draw of the background-star branch,
and the random position/velocity data a background star would use. -/
structure TickEnv where
  delta : ℚ
  bgDraw : ℚ
  bgx : ℚ
  bgy : ℚ
  bgVels : List Vec3
deriving Repr

/-- One full `animate` tick on the registry (`src/script.js` lines 204-215):
the reverse update/reap loop, then, when `Math.random() < 0.02`, a background
star spawned by `launchFirework((Math.random()-0.5)*120, (Math.random()-0.5)*80,
-50, 0x444444)`, which pushes a new `Firework` at the end of the array. -/
def animateTick (cfg : Config) (fws : List Firework) (e : TickEnv) : List Firework :=
  let fws2 := animTick cfg e.delta fws
  if e.bgDraw < 2/100 then
    fws2 ++ [Firework.create
      { x := (e.bgx - 1/2) * 120, y := (e.bgy - 1/2) * 80, z := -50 }
      0x444444 e.bgVels]
  else fws2

/-- A sequence of `animate` ticks. -/
def runTicks (cfg : Config) (fws : List Firework) : List TickEnv → List Firework
  | [] => fws
  | e :: es => runTicks cfg (animateTick cfg fws e) es

/-- Spec-side statement of the position update rule, written as the two
separate assignment lines of the specification: first
`position[i] += velocity[i] * dt * K_VELOCITY` on all three axes, then
`position[i].y += GRAVITY_Y * dt * K_GRAVITY` added directly to the y
position (never accumulated into the velocity). -/
def specAdvancePos (cfg : Config) (dt : ℚ) (p v : Vec3) : Vec3 :=
  let p1 : Vec3 := { x := p.x + v.x * dt * 15, y := p.y + v.y * dt * 15, z := p.z + v.z * dt * 15 }
  { p1 with y := p1.y + cfg.gravityY * dt * 20 }

/-- Spec-side statement of the velocity update rule: `velocity[i] *= DRAG`,
with no gravity contribution. -/
def specAdvanceVel (cfg : Config) (v : Vec3) : Vec3 :=
  { x := v.x * cfg.drag, y := v.y * cfg.drag, z := v.z * cfg.drag }

/-- The early return: updating an inactive firework changes nothing. -/
theorem update_inactive (cfg : Config) (fw : Firework) (dt : ℚ)
    (h : fw.active = false) : fw.update cfg dt = fw := by
  simp [Firework.update, h]

/-- The reverse splice loop equals: update every firework that was present,
keep exactly the ones still active, preserving order; entries at indices not
yet visited are untouched. -/
theorem tickLoop_eq (cfg : Config) (d : ℚ) :
    ∀ (i : ℕ) (a : List Firework), i ≤ a.length →
      tickLoop cfg d i a =
        ((a.take i).map fun f => f.update cfg d).filter (fun f => f.active)
          ++ a.drop i := by
  intro i
  induction i with
  | zero =>
    intro a _
    simp [tickLoop]
  | succ i ih =>
    intro a h
    have hi : i < a.length := Nat.lt_of_succ_le h
    have hlen : (a.take i).length = i := by
      simp [List.length_take, Nat.min_eq_left (Nat.le_of_lt hi)]
    have hgetD : a.getD i fwDefault = a[i] := by
      simp [List.getD_eq_getElem?_getD, List.getElem?_eq_getElem hi]
    have hset : a.set i (a[i].update cfg d)
        = a.take i ++ (a[i].update cfg d) :: a.drop (i + 1) :=
      List.set_eq_take_cons_drop _ hi
    have htake : (a.take i ++ (a[i].update cfg d) :: a.drop (i + 1)).take i
        = a.take i := List.take_left' hlen
    have hdrop : (a.take i ++ (a[i].update cfg d) :: a.drop (i + 1)).drop i
        = (a[i].update cfg d) :: a.drop (i + 1) := List.drop_left' hlen
    have htakes : a.take (i + 1) = a.take i ++ [a[i]] := by
      rw [List.take_succ, List.getElem?_eq_getElem hi]
      rfl
    rw [tickLoop, hgetD, hset]
    by_cases hact : (a[i].update cfg d).active = true
    · rw [if_pos hact]
      rw [ih _ (by simp [hlen]), htake, hdrop, htakes]
      rw [List.map_append, List.filter_append]
      simp [hact]
    · rw [if_neg hact]
      have hdrop1 : (a.take i ++ (a[i].update cfg d) :: a.drop (i + 1)).drop (i + 1)
          = a.drop (i + 1) := by
        rw [← List.drop_drop, hdrop]
        rfl
      rw [List.eraseIdx_eq_take_drop_succ, htake, hdrop1]
      rw [ih _ (by simp [hlen])]
      rw [List.take_left' hlen, List.drop_left' hlen, htakes]
      rw [List.map_append, List.filter_append]
      simp [hact]

/-- Functional characterisation of one registry pass: every firework present
at the start of the tick is updated exactly once, and the pass keeps exactly
the still-active ones, in order. -/
theorem animTick_eq (cfg : Config) (d : ℚ) (fws : List Firework) :
    animTick cfg d fws
      = (fws.map fun f => f.update cfg d).filter (fun f => f.active) := by
  have h := tickLoop_eq cfg d fws.length fws le_rfl
  simpa [animTick] using h

/-- Age after updating a live firework: `time += delta`. -/
theorem update_time (cfg : Config) (fw : Firework) (dt : ℚ)
    (h : fw.active = true) : (fw.update cfg dt).time = fw.time + dt := by
  unfold Firework.update
  rw [if_neg (by simp [h])]
  dsimp only
  split <;> rfl

/-- Positions after updating a live firework: the per-particle loop. -/
theorem update_positions (cfg : Config) (fw : Firework) (dt : ℚ)
    (h : fw.active = true) : (fw.update cfg dt).positions
      = List.zipWith (stepPos cfg dt) fw.positions fw.velocities := by
  unfold Firework.update
  rw [if_neg (by simp [h])]
  dsimp only
  split <;> rfl

/-- Velocities after updating a live firework: drag on every particle. -/
theorem update_velocities (cfg : Config) (fw : Firework) (dt : ℚ)
    (h : fw.active = true) : (fw.update cfg dt).velocities
      = fw.velocities.map (stepVel cfg) := by
  unfold Firework.update
  rw [if_neg (by simp [h])]
  dsimp only
  split <;> rfl

/-- Opacity after updating a live firework: the fade formula at the new age. -/
theorem update_opacity (cfg : Config) (fw : Firework) (dt : ℚ)
    (h : fw.active = true) : (fw.update cfg dt).opacity
      = max 0 (1 - (fw.time + dt) / cfg.lifetime) := by
  unfold Firework.update
  rw [if_neg (by simp [h])]
  dsimp only
  split <;> rfl

/-- A live firework dies in this update exactly when its new age strictly
exceeds the lifetime. -/
theorem update_active_iff (cfg : Config) (fw : Firework) (dt : ℚ)
    (h : fw.active = true) :
    ((fw.update cfg dt).active = false ↔ cfg.lifetime < fw.time + dt) := by
  unfold Firework.update
  rw [if_neg (by simp [h])]
  dsimp only
  split <;> simp_all

/-- Disposal counter after updating a live firework: it increments exactly on
the death transition. -/
theorem update_disposals (cfg : Config) (fw : Firework) (dt : ℚ)
    (h : fw.active = true) : (fw.update cfg dt).disposals
      = if cfg.lifetime < fw.time + dt then fw.disposals + 1 else fw.disposals := by
  unfold Firework.update
  rw [if_neg (by simp [h])]
  dsimp only
  split <;> simp_all

/-- Scene membership after updating a live firework: `scene.remove` runs
exactly on the death transition. -/
theorem update_inScene (cfg : Config) (fw : Firework) (dt : ℚ)
    (h : fw.active = true) : (fw.update cfg dt).inScene
      = if cfg.lifetime < fw.time + dt then false else fw.inScene := by
  unfold Firework.update
  rw [if_neg (by simp [h])]
  dsimp only
  split <;> simp_all

/-- C1: for every live Burst and every particle, one `update(dt)` call
performs exactly the spec's integration step — position gains
`velocity * dt * 15` on all three axes, then gravity `GRAVITY_Y * dt * 20`
is added directly to the y position (never accumulated into the velocity,
as the velocity update is exactly `velocity *= DRAG` with no gravity term),
and age increases by `dt`; the per-variant drag constants all lie in
[0.95, 0.98]. -/
theorem c1_advance_exact (cfg : Config) (fw : Firework) (dt : ℚ)
    (hact : fw.active = true) :
    (fw.update cfg dt).time = fw.time + dt ∧
    (fw.update cfg dt).positions
      = List.zipWith (specAdvancePos cfg dt) fw.positions fw.velocities ∧
    (fw.update cfg dt).velocities = fw.velocities.map (specAdvanceVel cfg) ∧
    (19/20 ≤ scriptCfg.drag ∧ scriptCfg.drag ≤ 49/50) ∧
    (19/20 ≤ goldCfg.drag ∧ goldCfg.drag ≤ 49/50) ∧
    (19/20 ≤ techCfg.drag ∧ techCfg.drag ≤ 49/50) := by
  have hpos : stepPos cfg dt = specAdvancePos cfg dt := rfl
  have hvel : stepVel cfg = specAdvanceVel cfg := rfl
  refine ⟨update_time cfg fw dt hact, ?_, ?_, ?_, ?_, ?_⟩
  · rw [update_positions cfg fw dt hact, hpos]
  · rw [update_velocities cfg fw dt hact, hvel]
  · constructor <;> norm_num [scriptCfg]
  · constructor <;> norm_num [goldCfg]
  · constructor <;> norm_num [techCfg]

/-- Witness for C1 at a concrete live one-particle firework. -/
theorem c1_advance_exact_w :
    (Firework.create { x := 0, y := 0, z := 0 } 0xd4af37 [{ x := 1, y := 2, z := 3 }]).active
        = true ∧
    ((Firework.create { x := 0, y := 0, z := 0 } 0xd4af37
        [{ x := 1, y := 2, z := 3 }]).update scriptCfg (1/10)).time
        = (Firework.create { x := 0, y := 0, z := 0 } 0xd4af37
            [{ x := 1, y := 2, z := 3 }]).time + 1/10 ∧
    ((Firework.create { x := 0, y := 0, z := 0 } 0xd4af37
        [{ x := 1, y := 2, z := 3 }]).update scriptCfg (1/10)).positions
        = List.zipWith (specAdvancePos scriptCfg (1/10))
            (Firework.create { x := 0, y := 0, z := 0 } 0xd4af37
              [{ x := 1, y := 2, z := 3 }]).positions
            (Firework.create { x := 0, y := 0, z := 0 } 0xd4af37
              [{ x := 1, y := 2, z := 3 }]).velocities ∧
    ((Firework.create { x := 0, y := 0, z := 0 } 0xd4af37
        [{ x := 1, y := 2, z := 3 }]).update scriptCfg (1/10)).velocities
        = (Firework.create { x := 0, y := 0, z := 0 } 0xd4af37
            [{ x := 1, y := 2, z := 3 }]).velocities.map (specAdvanceVel scriptCfg) ∧
    (19/20 ≤ scriptCfg.drag ∧ scriptCfg.drag ≤ 49/50) ∧
    (19/20 ≤ goldCfg.drag ∧ goldCfg.drag ≤ 49/50) ∧
    (19/20 ≤ techCfg.drag ∧ techCfg.drag ≤ 49/50) :=
  ⟨rfl, c1_advance_exact scriptCfg
    (Firework.create { x := 0, y := 0, z := 0 } 0xd4af37 [{ x := 1, y := 2, z := 3 }])
    (1/10) rfl⟩

/-- C4: one tick of the `animate` reaping loop visits each Burst present at
the start of the tick exactly once even though dead Bursts are spliced out
mid-scan: the loop's result is exactly the start-of-tick list with every
element updated once and the now-dead ones removed, in order. -/
theorem c4_tick_iteration_skip_safe (cfg : Config) (d : ℚ) (fws : List Firework) :
    animTick cfg d fws
      = (fws.map fun f => f.update cfg d).filter (fun f => f.active) :=
  animTick_eq cfg d fws

/-- C10: calling `update` on a firework whose `active` flag is already false
is a complete no-op — time, positions, velocities, opacity, scene membership
and the disposal counter are all unchanged. -/
theorem c10_inactive_update_noop (cfg : Config) (fw : Firework) (dt : ℚ)
    (h : fw.active = false) :
    fw.update cfg dt = fw ∧
    (fw.update cfg dt).time = fw.time ∧
    (fw.update cfg dt).positions = fw.positions ∧
    (fw.update cfg dt).velocities = fw.velocities ∧
    (fw.update cfg dt).opacity = fw.opacity ∧
    (fw.update cfg dt).inScene = fw.inScene ∧
    (fw.update cfg dt).disposals = fw.disposals := by
  have h0 := update_inactive cfg fw dt h
  exact ⟨h0, by rw [h0], by rw [h0], by rw [h0], by rw [h0], by rw [h0], by rw [h0]⟩

/-- Witness for C10 at a concrete inactive firework. -/
theorem c10_inactive_update_noop_w :
    fwDefault.active = false ∧
    (fwDefault.update scriptCfg 1 = fwDefault ∧
      (fwDefault.update scriptCfg 1).time = fwDefault.time ∧
      (fwDefault.update scriptCfg 1).positions = fwDefault.positions ∧
      (fwDefault.update scriptCfg 1).velocities = fwDefault.velocities ∧
      (fwDefault.update scriptCfg 1).opacity = fwDefault.opacity ∧
      (fwDefault.update scriptCfg 1).inScene = fwDefault.inScene ∧
      (fwDefault.update scriptCfg 1).disposals = fwDefault.disposals) :=
  ⟨rfl, c10_inactive_update_noop scriptCfg fwDefault 1 rfl⟩

/-- C8: for every particle of every Burst and every tick, with the drag
constant in (0,1), the Euclidean magnitude of the particle's velocity after
the tick is at most its magnitude before the tick. -/
theorem c8_velocity_magnitude_nonincreasing (cfg : Config) (fw : Firework)
    (dt : ℚ) (hd0 : 0 < cfg.drag) (hd1 : cfg.drag < 1) (i : ℕ)
    (hi : i < (fw.update cfg dt).velocities.length)
    (hi2 : i < fw.velocities.length) :
    Real.sqrt ((((fw.update cfg dt).velocities.get ⟨i, hi⟩).normSq : ℝ))
      ≤ Real.sqrt (((fw.velocities.get ⟨i, hi2⟩).normSq : ℝ)) := by
  by_cases hact : fw.active = true
  · have hv := update_velocities cfg fw dt hact
    have hget : (fw.update cfg dt).velocities.get ⟨i, hi⟩
        = stepVel cfg (fw.velocities.get ⟨i, hi2⟩) := by
      have : ((fw.velocities.map (stepVel cfg)).get
          ⟨i, by rw [List.length_map]; exact hi2⟩)
          = stepVel cfg (fw.velocities.get ⟨i, hi2⟩) := by
        simp
      simp_all
    rw [hget]
    apply Real.sqrt_le_sqrt
    have hns : (0 : ℚ) ≤ (fw.velocities.get ⟨i, hi2⟩).normSq := by
      unfold Vec3.normSq
      positivity
    have hkey : (stepVel cfg (fw.velocities.get ⟨i, hi2⟩)).normSq
        ≤ (fw.velocities.get ⟨i, hi2⟩).normSq := by
      have hc2 : cfg.drag ^ 2 ≤ 1 := by nlinarith
      have hmul := mul_nonneg hns (sub_nonneg.mpr hc2)
      unfold stepVel Vec3.normSq
      unfold Vec3.normSq at hmul
      dsimp only
      nlinarith [hmul]
    exact_mod_cast hkey
  · have h0 : fw.update cfg dt = fw :=
      update_inactive cfg fw dt (by simpa using hact)
    have hget : (fw.update cfg dt).velocities.get ⟨i, hi⟩
        = fw.velocities.get ⟨i, hi2⟩ :=
      List.get_of_eq (by rw [h0]) ⟨i, hi⟩
    rw [hget]

/-- Witness for C8 at a concrete one-particle firework with the script's
drag constant 0.97. -/
theorem c8_velocity_magnitude_nonincreasing_w :
    0 < scriptCfg.drag ∧ scriptCfg.drag < 1 ∧
    Real.sqrt (((((Firework.create { x := 0, y := 0, z := 0 } 0
          [{ x := 1, y := 2, z := 3 }]).update scriptCfg 1).velocities.get
            ⟨0, by rw [update_velocities scriptCfg (Firework.create { x := 0, y := 0, z := 0 } 0
              [{ x := 1, y := 2, z := 3 }]) 1 rfl]; simp [Firework.create]⟩).normSq : ℝ))
      ≤ Real.sqrt ((((Firework.create { x := 0, y := 0, z := 0 } 0
          [{ x := 1, y := 2, z := 3 }]).velocities.get ⟨0, by decide⟩).normSq : ℝ)) :=
  ⟨by norm_num [scriptCfg], by norm_num [scriptCfg],
    c8_velocity_magnitude_nonincreasing scriptCfg
      (Firework.create { x := 0, y := 0, z := 0 } 0 [{ x := 1, y := 2, z := 3 }]) 1
      (by norm_num [scriptCfg]) (by norm_num [scriptCfg]) 0
      (by rw [update_velocities scriptCfg (Firework.create { x := 0, y := 0, z := 0 } 0
        [{ x := 1, y := 2, z := 3 }]) 1 rfl]; simp [Firework.create]) (by decide)⟩

/-- Age after updating a live firework in the flicker variant:
`time += delta`, as in the non-flicker update. -/
theorem update_flicker_time (cfg : Config) (fw : Firework) (dt draw : ℚ)
    (h : fw.active = true) :
    (fw.updateFlicker cfg dt draw).time = fw.time + dt := by
  unfold Firework.updateFlicker
  rw [if_neg (by simp [h])]
  dsimp only
  split <;> rfl

/-- Opacity after updating a live firework in the flicker variant: the fade
formula at the new age when the frame's draw exceeds 0.1, the constant 0.2
otherwise. -/
theorem update_flicker_opacity (cfg : Config) (fw : Firework) (dt draw : ℚ)
    (h : fw.active = true) :
    (fw.updateFlicker cfg dt draw).opacity
      = if 1/10 < draw then max 0 (1 - (fw.time + dt) / cfg.lifetime)
        else 1/5 := by
  unfold Firework.updateFlicker
  rw [if_neg (by simp [h])]
  dsimp only
  split <;> rfl

/-- Counterexample to C5 as stated: in the flicker (tech) variant the exposed
opacity does not always equal `max(0, 1 - age/lifetime)`.  A fresh burst
updated with dt = 0.1 on a frame whose draw is 0.05 (so the `Math.random() >
0.1` test fails) exposes opacity 0.2, while the fade formula gives 24/25. -/
theorem c5_counterexample :
    ((Firework.create { x := 0, y := 0, z := 0 } 0 []).updateFlicker techCfg
        (1/10) (1/20)).opacity
      ≠ max 0 (1 - ((Firework.create { x := 0, y := 0, z := 0 } 0
          []).updateFlicker techCfg (1/10) (1/20)).time / techCfg.lifetime) := by
  rw [update_flicker_opacity techCfg _ _ _ rfl,
    update_flicker_time techCfg _ _ _ rfl, if_neg (by norm_num),
    show (Firework.create { x := 0, y := 0, z := 0 } 0 []).time = 0 from rfl,
    max_eq_right (by norm_num [techCfg])]
  norm_num [techCfg]

/-- C5 (amended): after every tick of a live Burst, the non-flicker variants
expose opacity exactly `max(0, 1 - age/lifetime)`; the flicker (tech) variant
exposes that fade value exactly when the frame's draw exceeds 0.1 and the
constant 0.2 otherwise; in every variant the exposed opacity lies within
[0, 1]; and in the non-flicker variant it is non-increasing from one tick's
value to the next. -/
theorem c5_opacity_fade (cfg : Config) (fw : Firework) (dt draw : ℚ)
    (hact : fw.active = true) (hlife : 0 < cfg.lifetime)
    (htime : 0 ≤ fw.time) (hdt : 0 ≤ dt) :
    (fw.update cfg dt).opacity
        = max 0 (1 - (fw.update cfg dt).time / cfg.lifetime) ∧
    0 ≤ (fw.update cfg dt).opacity ∧
    (fw.update cfg dt).opacity ≤ 1 ∧
    (fw.opacity = max 0 (1 - fw.time / cfg.lifetime) →
      (fw.update cfg dt).opacity ≤ fw.opacity) ∧
    (fw.updateFlicker cfg dt draw).opacity
        = (if 1/10 < draw
           then max 0 (1 - (fw.updateFlicker cfg dt draw).time / cfg.lifetime)
           else 1/5) ∧
    0 ≤ (fw.updateFlicker cfg dt draw).opacity ∧
    (fw.updateFlicker cfg dt draw).opacity ≤ 1 := by
  have ht := update_time cfg fw dt hact
  have ho := update_opacity cfg fw dt hact
  have hft := update_flicker_time cfg fw dt draw hact
  have hfo := update_flicker_opacity cfg fw dt draw hact
  have hq : 0 ≤ (fw.time + dt) / cfg.lifetime :=
    div_nonneg (by linarith) hlife.le
  refine ⟨by rw [ho, ht], by rw [ho]; exact le_max_left 0 _, ?_, ?_, ?_, ?_, ?_⟩
  · rw [ho]
    apply max_le (by norm_num)
    linarith
  · intro hprev
    rw [ho, hprev]
    have hmono : fw.time / cfg.lifetime ≤ (fw.time + dt) / cfg.lifetime :=
      (div_le_div_iff_of_pos_right hlife).mpr (by linarith)
    exact max_le_max le_rfl (by linarith)
  · rw [hfo, hft]
  · rw [hfo]
    split
    · exact le_max_left 0 _
    · norm_num
  · rw [hfo]
    split
    · apply max_le (by norm_num)
      linarith
    · norm_num

/-- Witness for the amended C5 at a concrete live firework of the tech
variant, on a flickering frame. -/
theorem c5_opacity_fade_w :
    (Firework.create { x := 0, y := 0, z := 0 } 0 []).active = true ∧
    (0 : ℚ) < techCfg.lifetime ∧
    (0 : ℚ) ≤ (Firework.create { x := 0, y := 0, z := 0 } 0 []).time ∧
    (0 : ℚ) ≤ (1 : ℚ)/10 ∧
    (((Firework.create { x := 0, y := 0, z := 0 } 0 []).update techCfg (1/10)).opacity
        = max 0 (1 - ((Firework.create { x := 0, y := 0, z := 0 } 0 []).update
            techCfg (1/10)).time / techCfg.lifetime) ∧
      0 ≤ ((Firework.create { x := 0, y := 0, z := 0 } 0 []).update techCfg (1/10)).opacity ∧
      ((Firework.create { x := 0, y := 0, z := 0 } 0 []).update techCfg (1/10)).opacity ≤ 1 ∧
      ((Firework.create { x := 0, y := 0, z := 0 } 0 []).opacity
          = max 0 (1 - (Firework.create { x := 0, y := 0, z := 0 } 0 []).time / techCfg.lifetime) →
        ((Firework.create { x := 0, y := 0, z := 0 } 0 []).update techCfg (1/10)).opacity
          ≤ (Firework.create { x := 0, y := 0, z := 0 } 0 []).opacity) ∧
      ((Firework.create { x := 0, y := 0, z := 0 } 0 []).updateFlicker techCfg
          (1/10) (1/20)).opacity
        = (if 1/10 < (1 : ℚ)/20
           then max 0 (1 - ((Firework.create { x := 0, y := 0, z := 0 } 0
              []).updateFlicker techCfg (1/10) (1/20)).time / techCfg.lifetime)
           else 1/5) ∧
      0 ≤ ((Firework.create { x := 0, y := 0, z := 0 } 0 []).updateFlicker techCfg
          (1/10) (1/20)).opacity ∧
      ((Firework.create { x := 0, y := 0, z := 0 } 0 []).updateFlicker techCfg
          (1/10) (1/20)).opacity ≤ 1) :=
  ⟨rfl, by norm_num [techCfg], by decide, by norm_num,
    c5_opacity_fade techCfg (Firework.create { x := 0, y := 0, z := 0 } 0 [])
      (1/10) (1/20) rfl (by norm_num [techCfg]) (by decide) (by norm_num)⟩

/-- One update preserves the disposal invariant: a live firework has never
been disposed, and no firework is disposed more than once. -/
theorem disposal_invariant_step (cfg : Config) (g : Firework) (e : ℚ)
    (h1 : g.active = true → g.disposals = 0) (h2 : g.disposals ≤ 1) :
    ((g.update cfg e).active = true → (g.update cfg e).disposals = 0)
      ∧ (g.update cfg e).disposals ≤ 1 := by
  by_cases ha : g.active = true
  · have hd := update_disposals cfg g e ha
    have hia := update_active_iff cfg g e ha
    have h0 := h1 ha
    constructor
    · intro h'
      by_cases hc : cfg.lifetime < g.time + e
      · exact absurd (hia.mpr hc) (by simp [h'])
      · rw [hd, if_neg hc]
        exact h0
    · rw [hd]
      split
      · omega
      · exact h2
  · have hb : g.active = false := by simpa using ha
    rw [update_inactive cfg g e hb]
    exact ⟨h1, h2⟩

/-- Across any sequence of updates the disposal path runs at most once. -/
theorem foldl_disposals_le (cfg : Config) : ∀ (ds : List ℚ) (g : Firework),
    (g.active = true → g.disposals = 0) → g.disposals ≤ 1 →
    (ds.foldl (fun f e => f.update cfg e) g).disposals ≤ 1 := by
  intro ds
  induction ds with
  | nil =>
    intro g _ h2
    exact h2
  | cons e es ih =>
    intro g h1 h2
    have hstep := disposal_invariant_step cfg g e h1 h2
    exact ih _ hstep.1 hstep.2

/-- Once dead, any sequence of further updates is the identity. -/
theorem foldl_update_inactive (cfg : Config) : ∀ (ds : List ℚ) (g : Firework),
    g.active = false → ds.foldl (fun f e => f.update cfg e) g = g := by
  intro ds
  induction ds with
  | nil =>
    intro g _
    rfl
  | cons e es ih =>
    intro g hg
    show es.foldl _ (g.update cfg e) = g
    rw [update_inactive cfg g e hg]
    exact ih g hg

/-- C3: a live Burst's age strictly increases each tick; it dies exactly when
the new age strictly exceeds the lifetime (at age equal to the lifetime it is
still alive); on the tick it dies the registry pass removes it and the
disposal/scene-removal path runs; and over its whole subsequent life the
disposal path runs exactly once, never again. -/
theorem c3_lifecycle (cfg : Config) (fw : Firework) (dt : ℚ)
    (hact : fw.active = true) (hdt : 0 < dt) :
    fw.time < (fw.update cfg dt).time ∧
    ((fw.update cfg dt).active = false ↔ cfg.lifetime < fw.time + dt) ∧
    (fw.time + dt = cfg.lifetime → (fw.update cfg dt).active = true) ∧
    ((fw.update cfg dt).disposals
      = if cfg.lifetime < fw.time + dt then fw.disposals + 1 else fw.disposals) ∧
    ((fw.update cfg dt).inScene
      = if cfg.lifetime < fw.time + dt then false else fw.inScene) ∧
    (animTick cfg dt [fw]
      = if (fw.update cfg dt).active = true then [fw.update cfg dt] else []) ∧
    (fw.disposals = 0 → ∀ ds : List ℚ,
      (ds.foldl (fun f e => f.update cfg e) (fw.update cfg dt)).disposals ≤ 1) ∧
    (fw.disposals = 0 → (fw.update cfg dt).active = false → ∀ ds : List ℚ,
      (ds.foldl (fun f e => f.update cfg e) (fw.update cfg dt)).disposals = 1) := by
  have hia := update_active_iff cfg fw dt hact
  have hd := update_disposals cfg fw dt hact
  refine ⟨?_, hia, ?_, hd, update_inScene cfg fw dt hact, ?_, ?_, ?_⟩
  · rw [update_time cfg fw dt hact]
    linarith
  · intro he
    by_cases hb : (fw.update cfg dt).active = true
    · exact hb
    · have hlt := hia.mp (by simpa using hb)
      rw [he] at hlt
      exact absurd hlt (lt_irrefl _)
  · rw [animTick_eq]
    simp [List.filter_cons]
  · intro h0 ds
    apply foldl_disposals_le
    · intro ha2
      rw [hd]
      by_cases hc : cfg.lifetime < fw.time + dt
      · exact absurd (hia.mpr hc) (by simp [ha2])
      · rw [if_neg hc]
        exact h0
    · rw [hd]
      split <;> omega
  · intro h0 hdead ds
    rw [foldl_update_inactive cfg ds _ hdead, hd, if_pos (hia.mp hdead), h0]

/-- Witness for C3 at a concrete live firework. -/
theorem c3_lifecycle_w :
    (Firework.create { x := 0, y := 0, z := 0 } 0 []).active = true ∧ (0 : ℚ) < 1 ∧
    ((Firework.create { x := 0, y := 0, z := 0 } 0 []).time
      < ((Firework.create { x := 0, y := 0, z := 0 } 0 []).update scriptCfg 1).time ∧
    (((Firework.create { x := 0, y := 0, z := 0 } 0 []).update scriptCfg 1).active = false
      ↔ scriptCfg.lifetime < (Firework.create { x := 0, y := 0, z := 0 } 0 []).time + 1) ∧
    ((Firework.create { x := 0, y := 0, z := 0 } 0 []).time + 1 = scriptCfg.lifetime →
      ((Firework.create { x := 0, y := 0, z := 0 } 0 []).update scriptCfg 1).active = true) ∧
    (((Firework.create { x := 0, y := 0, z := 0 } 0 []).update scriptCfg 1).disposals
      = if scriptCfg.lifetime < (Firework.create { x := 0, y := 0, z := 0 } 0 []).time + 1
        then (Firework.create { x := 0, y := 0, z := 0 } 0 []).disposals + 1
        else (Firework.create { x := 0, y := 0, z := 0 } 0 []).disposals) ∧
    (((Firework.create { x := 0, y := 0, z := 0 } 0 []).update scriptCfg 1).inScene
      = if scriptCfg.lifetime < (Firework.create { x := 0, y := 0, z := 0 } 0 []).time + 1
        then false else (Firework.create { x := 0, y := 0, z := 0 } 0 []).inScene) ∧
    (animTick scriptCfg 1 [Firework.create { x := 0, y := 0, z := 0 } 0 []]
      = if ((Firework.create { x := 0, y := 0, z := 0 } 0 []).update scriptCfg 1).active = true
        then [(Firework.create { x := 0, y := 0, z := 0 } 0 []).update scriptCfg 1] else []) ∧
    ((Firework.create { x := 0, y := 0, z := 0 } 0 []).disposals = 0 → ∀ ds : List ℚ,
      (ds.foldl (fun f e => f.update scriptCfg e)
        ((Firework.create { x := 0, y := 0, z := 0 } 0 []).update scriptCfg 1)).disposals ≤ 1) ∧
    ((Firework.create { x := 0, y := 0, z := 0 } 0 []).disposals = 0 →
      ((Firework.create { x := 0, y := 0, z := 0 } 0 []).update scriptCfg 1).active = false →
      ∀ ds : List ℚ,
      (ds.foldl (fun f e => f.update scriptCfg e)
        ((Firework.create { x := 0, y := 0, z := 0 } 0 []).update scriptCfg 1)).disposals = 1)) :=
  ⟨rfl, by norm_num,
    c3_lifecycle scriptCfg (Firework.create { x := 0, y := 0, z := 0 } 0 []) 1 rfl
      (by norm_num)⟩

/-- C6: a frame with no detected hand — the `multiHandLandmarks` field absent
or the hand list empty — leaves the sticky pinch state unchanged and emits no
trigger; the reducer is a total function, so missing landmark data is never a
failure. -/
theorem c6_no_hand_sticky (state : Bool) :
    onResultsFrame state none = (state, []) ∧
    onResultsFrame state (some []) = (state, []) :=
  ⟨rfl, rfl⟩

/-- With every background-star draw failing, ticking an empty registry any
number of times leaves it empty. -/
theorem runTicks_empty (cfg : Config) : ∀ es : List TickEnv,
    (∀ e ∈ es, 2/100 ≤ e.bgDraw) → runTicks cfg [] es = [] := by
  intro es
  induction es with
  | nil =>
    intro _
    rfl
  | cons e es ih =>
    intro h
    have he : ¬ e.bgDraw < 2/100 := not_lt.mpr (h e (by simp))
    show runTicks cfg (animateTick cfg [] e) es = []
    have hz : animateTick cfg [] e = [] := by
      simp [animateTick, animTick, tickLoop, he]
    rw [hz]
    exact ih fun x hx => h x (by simp [hx])

/-- C7: starting from an empty Registry, 1000 ticks in which no trigger is
delivered (every autonomous background-star draw fails, and no click or
gesture spawn occurs) leave the Registry empty. -/
theorem c7_no_spontaneous_bursts (cfg : Config) (es : List TickEnv)
    (hlen : es.length = 1000) (hdraw : ∀ e ∈ es, 2/100 ≤ e.bgDraw) :
    runTicks cfg [] es = [] :=
  runTicks_empty cfg es hdraw

/-- Witness for C7: 1000 concrete trigger-free ticks. -/
theorem c7_no_spontaneous_bursts_w :
    (List.replicate 1000
      ({ delta := 1/60, bgDraw := 1, bgx := 0, bgy := 0, bgVels := [] } : TickEnv)).length
      = 1000 ∧
    (∀ e ∈ List.replicate 1000
      ({ delta := 1/60, bgDraw := 1, bgx := 0, bgy := 0, bgVels := [] } : TickEnv),
      2/100 ≤ e.bgDraw) ∧
    runTicks scriptCfg [] (List.replicate 1000
      ({ delta := 1/60, bgDraw := 1, bgx := 0, bgy := 0, bgVels := [] } : TickEnv)) = [] :=
  ⟨by rw [List.length_replicate],
    fun e he => by rw [List.eq_of_mem_replicate he]; norm_num,
    c7_no_spontaneous_bursts scriptCfg _ (by rw [List.length_replicate])
      fun e he => by rw [List.eq_of_mem_replicate he]; norm_num⟩

/-- Counterexample to C9 as stated: the pointer path does not use the
mirrored formula `worldX = (0.5 - x) * SCALE_X`.  A click at the left edge of
a 1000x1000 viewport (clientX = 0, clientY = 500) is mapped by the code to
world x = -50, while the claimed formula yields +50. -/
theorem c9_counterexample :
    mouseWorld 0 500 1000 1000 ≠ specWorld (0 / 1000) (500 / 1000) := by
  intro h
  have hx := congrArg Vec3.x h
  norm_num [mouseWorld, specWorld] at hx

/-- C9 amended: gesture input follows the spec's linear formula exactly;
pointer input uses the same linear formula on Y but the opposite sign on X
(screen x is not mirrored); and for every nonzero viewport size a click at
the exact screen center maps to world (0,0), as does a hand whose index tip
sits at the image center. -/
theorem c9_world_mapping_amended (tip : Landmark) (cx cy w h : ℚ)
    (hw : w ≠ 0) (hh : h ≠ 0) :
    gestureWorld tip = specWorld tip.x tip.y ∧
    (mouseWorld cx cy w h).y = (specWorld (cx / w) (cy / h)).y ∧
    (mouseWorld cx cy w h).x = -((specWorld (cx / w) (cy / h)).x) ∧
    mouseWorld (w / 2) (h / 2) w h = { x := 0, y := 0, z := 0 } ∧
    gestureWorld { x := 1/2, y := 1/2 } = { x := 0, y := 0, z := 0 } := by
  refine ⟨rfl, ?_, ?_, ?_, by norm_num [gestureWorld]⟩
  · dsimp only [mouseWorld, specWorld]
    ring
  · dsimp only [mouseWorld, specWorld]
    ring
  · dsimp only [mouseWorld]
    have hwx : w / 2 / w = 1 / 2 := by
      field_simp
      ring
    have hhy : h / 2 / h = 1 / 2 := by
      field_simp
      ring
    rw [hwx, hhy]
    norm_num

/-- Witness for the amended C9 at a concrete 1000x1000 viewport. -/
theorem c9_world_mapping_amended_w :
    (1000 : ℚ) ≠ 0 ∧
    (gestureWorld { x := 1/2, y := 1/2 } = specWorld (1/2) (1/2) ∧
      (mouseWorld 250 250 1000 1000).y = (specWorld (250 / 1000) (250 / 1000)).y ∧
      (mouseWorld 250 250 1000 1000).x = -((specWorld (250 / 1000) (250 / 1000)).x) ∧
      mouseWorld (1000 / 2) (1000 / 2) 1000 1000 = { x := 0, y := 0, z := 0 } ∧
      gestureWorld { x := 1/2, y := 1/2 } = { x := 0, y := 0, z := 0 }) :=
  ⟨by norm_num,
    c9_world_mapping_amended { x := 1/2, y := 1/2 } 250 250 1000 1000
      (by norm_num) (by norm_num)⟩

/-- A frame carrying exactly one hand reduces to that hand's step. -/
theorem onResultsFrame_one (s : Bool) (p : Hand × HandRand) :
    onResultsFrame s (oneHand p) = handStep s p.1 p.2 := by
  simp [onResultsFrame, oneHand]

/-- The reducer emits one frame output per input frame. -/
theorem runPinch_length : ∀ (inputs : List (Option (List (Hand × HandRand))))
    (s : Bool), (runPinch s inputs).length = inputs.length := by
  intro inputs
  induction inputs with
  | nil =>
    intro s
    rfl
  | cons f fs ih =>
    intro s
    show ((onResultsFrame s f) :: runPinch (onResultsFrame s f).1 fs).length = _
    rw [List.length_cons, ih, List.length_cons]

/-- Each frame's output is the reducer applied to the state accumulated over
the preceding frames. -/
theorem runPinch_getD : ∀ (inputs : List (Option (List (Hand × HandRand))))
    (s : Bool) (i : ℕ), i < inputs.length →
    (runPinch s inputs).getD i (false, [])
      = onResultsFrame (stateAfter s (inputs.take i)) (inputs.getD i none) := by
  intro inputs
  induction inputs with
  | nil =>
    intro s i hi
    exact absurd hi (by simp)
  | cons f fs ih =>
    intro s i hi
    cases i with
    | zero =>
      rfl
    | succ i =>
      show (runPinch (onResultsFrame s f).1 fs).getD i (false, []) = _
      rw [ih _ i (by simpa using hi)]
      rfl

/-- Indexing a mapped single-hand frame list. -/
theorem getD_map_oneHand (frames : List (Hand × HandRand)) (i : ℕ)
    (hi : i < frames.length) :
    (frames.map oneHand).getD i none = oneHand (frames.getD i handDefault) := by
  rw [List.getD_eq_getElem?_getD, List.getD_eq_getElem?_getD,
    List.getElem?_eq_getElem (by simpa using hi), List.getElem?_eq_getElem hi]
  simp

/-- Below-threshold frame: the pinch branch fires — state becomes `PINCHING`,
at least one hold spark is launched, and no release is emitted. -/
theorem handStep_below (s : Bool) (h : Hand) (r : HandRand)
    (hb : distSq h.thumbTip h.indexTip < (5/100) ^ 2) :
    (handStep s h r).1 = true ∧ 1 ≤ pinchHolds (handStep s h r).2
      ∧ releases (handStep s h r).2 = 0 := by
  by_cases hp : (1/10 : ℚ) ^ 2 < distSq h.indexTip h.middleTip ∧ r.palmDraw < 1/10 <;>
    simp [handStep, hb, hp, pinchHolds, releases, Trigger.isHold, Trigger.isRelease] <;>
      rintro a - - rfl <;> rfl

/-- At-or-above-threshold frame: state returns to `NOT_PINCHING`, and a
release is emitted exactly when the previous state was `PINCHING`. -/
theorem handStep_above (s : Bool) (h : Hand) (r : HandRand)
    (ha : ¬ distSq h.thumbTip h.indexTip < (5/100) ^ 2) :
    (handStep s h r).1 = false
      ∧ releases (handStep s h r).2 = if s then 1 else 0 := by
  by_cases hp : (1/10 : ℚ) ^ 2 < distSq h.indexTip h.middleTip ∧ r.palmDraw < 1/10 <;>
    cases s <;>
      simp [handStep, ha, hp, releases, Trigger.isRelease] <;>
        rintro a - - rfl <;> rfl

/-- Falling edge only: a hand step can emit a release only from the
`PINCHING` state. -/
theorem handStep_release_edge (s : Bool) (h : Hand) (r : HandRand)
    (hr : 1 ≤ releases (handStep s h r).2) : s = true := by
  by_cases hb : distSq h.thumbTip h.indexTip < (5/100) ^ 2
  · have h0 := (handStep_below s h r hb).2.2
    omega
  · cases s with
    | true => rfl
    | false =>
      have h0 := (handStep_above false h r hb).2
      simp at h0
      omega

/-- Appending one frame to the consumed prefix advances the accumulated
state by that frame's hand step. -/
theorem stateAfter_take_succ (frames : List (Hand × HandRand)) (s : Bool)
    (i : ℕ) (hi : i < frames.length) :
    stateAfter s ((frames.map oneHand).take (i + 1))
      = (handStep (stateAfter s ((frames.map oneHand).take i))
          (frames.getD i handDefault).1 (frames.getD i handDefault).2).1 := by
  have h1 : (frames.map oneHand).take (i + 1)
      = (frames.map oneHand).take i ++ [oneHand (frames.getD i handDefault)] := by
    rw [List.take_succ,
      List.getElem?_eq_getElem (show i < (frames.map oneHand).length by simpa using hi)]
    simp [List.getD_eq_getElem?_getD, List.getElem?_eq_getElem hi]
  rw [h1]
  unfold stateAfter
  rw [List.foldl_append]
  simp only [List.foldl_cons, List.foldl_nil]
  rw [onResultsFrame_one]

/-- Under the C2 frame pattern — below threshold on the first five frames,
at or above from the sixth on — the sticky state is `PINCHING` after frames
1..5 and `NOT_PINCHING` after frame 6 and every later frame. -/
theorem pinch_state_progress (frames : List (Hand × HandRand))
    (hlen : 6 ≤ frames.length)
    (hheld : ∀ i, i < 5 →
      distSq (frames.getD i handDefault).1.thumbTip
        (frames.getD i handDefault).1.indexTip < (5/100) ^ 2)
    (habove : ∀ i, 5 ≤ i → i < frames.length →
      ¬ distSq (frames.getD i handDefault).1.thumbTip
        (frames.getD i handDefault).1.indexTip < (5/100) ^ 2) :
    (∀ i, 1 ≤ i → i ≤ 5 →
      stateAfter false ((frames.map oneHand).take i) = true) ∧
    (∀ i, 6 ≤ i → i ≤ frames.length →
      stateAfter false ((frames.map oneHand).take i) = false) := by
  constructor
  · intro i h1 h5
    obtain ⟨j, rfl⟩ : ∃ j, i = j + 1 := ⟨i - 1, by omega⟩
    rw [stateAfter_take_succ frames false j (by omega)]
    exact (handStep_below _ _ _ (hheld j (by omega))).1
  · intro i h6 hle
    obtain ⟨j, rfl⟩ : ∃ j, i = j + 1 := ⟨i - 1, by omega⟩
    rw [stateAfter_take_succ frames false j (by omega)]
    exact (handStep_above _ _ _ (habove j (by omega) (by omega))).1

/-- C2: for every single-hand landmark sequence whose pinch distance is
below `PINCH_THRESHOLD` on frames 1-5 and at or above it from frame 6 on,
starting from `NOT_PINCHING`: a `PinchHold` trigger is emitted on each held
frame with no release; exactly one `PinchRelease` is emitted, on frame 6;
frames after the sixth emit no release; and in general a release can only be
emitted from a frame whose previous state was `PINCHING` (falling edge). -/
theorem c2_pinch_hysteresis (frames : List (Hand × HandRand))
    (hlen : 6 ≤ frames.length)
    (hheld : ∀ i, i < 5 →
      distSq (frames.getD i handDefault).1.thumbTip
        (frames.getD i handDefault).1.indexTip < (5/100) ^ 2)
    (habove : ∀ i, 5 ≤ i → i < frames.length →
      (5/100) ^ 2 ≤ distSq (frames.getD i handDefault).1.thumbTip
        (frames.getD i handDefault).1.indexTip) :
    (pinchOuts frames).length = frames.length ∧
    (∀ i, i < 5 →
      1 ≤ pinchHolds ((pinchOuts frames).getD i (false, [])).2 ∧
      releases ((pinchOuts frames).getD i (false, [])).2 = 0) ∧
    releases ((pinchOuts frames).getD 5 (false, [])).2 = 1 ∧
    (∀ i, 6 ≤ i → releases ((pinchOuts frames).getD i (false, [])).2 = 0) ∧
    (∀ (s : Bool) (hd : Hand) (r : HandRand),
      1 ≤ releases (handStep s hd r).2 → s = true) := by
  have houts_len : (pinchOuts frames).length = frames.length := by
    unfold pinchOuts
    rw [runPinch_length, List.length_map]
  have houts : ∀ i, i < frames.length →
      (pinchOuts frames).getD i (false, [])
        = handStep (stateAfter false ((frames.map oneHand).take i))
            (frames.getD i handDefault).1 (frames.getD i handDefault).2 := by
    intro i hi
    unfold pinchOuts
    rw [runPinch_getD _ false i (by simpa using hi), getD_map_oneHand frames i hi,
      onResultsFrame_one]
  have hprog := pinch_state_progress frames hlen hheld
    fun i h5 hil => not_lt.mpr (habove i h5 hil)
  refine ⟨houts_len, ?_, ?_, ?_, handStep_release_edge⟩
  · intro i hi5
    have hif : i < frames.length := by omega
    rw [houts i hif]
    have hb := handStep_below (stateAfter false ((frames.map oneHand).take i))
      (frames.getD i handDefault).1 (frames.getD i handDefault).2 (hheld i hi5)
    exact ⟨hb.2.1, hb.2.2⟩
  · have h5f : 5 < frames.length := by omega
    rw [houts 5 h5f]
    have hs5 : stateAfter false ((frames.map oneHand).take 5) = true :=
      hprog.1 5 (by omega) (by omega)
    rw [hs5]
    have ha := handStep_above true (frames.getD 5 handDefault).1
      (frames.getD 5 handDefault).2 (not_lt.mpr (habove 5 le_rfl h5f))
    simpa using ha.2
  · intro i h6
    by_cases hif : i < frames.length
    · rw [houts i hif]
      have hsi : stateAfter false ((frames.map oneHand).take i) = false :=
        hprog.2 i h6 (le_of_lt hif)
      rw [hsi]
      have ha := handStep_above false (frames.getD i handDefault).1
        (frames.getD i handDefault).2 (not_lt.mpr (habove i (by omega) hif))
      simpa using ha.2
    · have hge : (pinchOuts frames).length ≤ i := by omega
      rw [List.getD_eq_default _ _ hge]
      rfl

/-- Witness for C2 on the concrete six-frame sequence: five held frames then
one open frame. -/
theorem c2_pinch_hysteresis_w :
    6 ≤ ([heldFrame, heldFrame, heldFrame, heldFrame, heldFrame,
      openFrame]).length ∧
    (∀ i, i < 5 →
      distSq (([heldFrame, heldFrame, heldFrame, heldFrame, heldFrame,
          openFrame]).getD i handDefault).1.thumbTip
        (([heldFrame, heldFrame, heldFrame, heldFrame, heldFrame,
          openFrame]).getD i handDefault).1.indexTip < (5/100) ^ 2) ∧
    (∀ i, 5 ≤ i → i < ([heldFrame, heldFrame, heldFrame, heldFrame, heldFrame,
        openFrame]).length →
      (5/100) ^ 2 ≤ distSq (([heldFrame, heldFrame, heldFrame, heldFrame,
          heldFrame, openFrame]).getD i handDefault).1.thumbTip
        (([heldFrame, heldFrame, heldFrame, heldFrame, heldFrame,
          openFrame]).getD i handDefault).1.indexTip) ∧
    ((pinchOuts [heldFrame, heldFrame, heldFrame, heldFrame, heldFrame,
        openFrame]).length
      = ([heldFrame, heldFrame, heldFrame, heldFrame, heldFrame,
          openFrame]).length ∧
    (∀ i, i < 5 →
      1 ≤ pinchHolds ((pinchOuts [heldFrame, heldFrame, heldFrame, heldFrame,
        heldFrame, openFrame]).getD i (false, [])).2 ∧
      releases ((pinchOuts [heldFrame, heldFrame, heldFrame, heldFrame,
        heldFrame, openFrame]).getD i (false, [])).2 = 0) ∧
    releases ((pinchOuts [heldFrame, heldFrame, heldFrame, heldFrame,
      heldFrame, openFrame]).getD 5 (false, [])).2 = 1 ∧
    (∀ i, 6 ≤ i → releases ((pinchOuts [heldFrame, heldFrame, heldFrame,
      heldFrame, heldFrame, openFrame]).getD i (false, [])).2 = 0) ∧
    (∀ (s : Bool) (hd : Hand) (r : HandRand),
      1 ≤ releases (handStep s hd r).2 → s = true)) :=
  ⟨by simp,
    by
      intro i hi
      interval_cases i <;> norm_num [heldFrame, distSq],
    by
      intro i h5 h6
      simp only [List.length_cons, List.length_nil] at h6
      interval_cases i
      norm_num [openFrame, distSq],
    c2_pinch_hysteresis [heldFrame, heldFrame, heldFrame, heldFrame, heldFrame,
        openFrame]
      (by simp)
      (by
        intro i hi
        interval_cases i <;> norm_num [heldFrame, distSq])
      (by
        intro i h5 h6
        simp only [List.length_cons, List.length_nil] at h6
        interval_cases i
        norm_num [openFrame, distSq])⟩
